import Mathlib

/-!
Verification of the strategic step-graph engine described by the repository
specification, against a shallow embedding of the repository sources.

Sources embedded directly:
  * `06_strategic_executor.py` — the node functions (`create_plan_node`,
    `evaluate_plan_node`, `adapt_plan_node`, `execute_plan_node`), the router
    (`should_adapt`) and the graph wiring (`workflow`).
  * `08_memory_langgraph.py` — uses of the checkpointer and knowledge store.

The generic workflow executor (graph compilation, node stepping, the step
limit, checkpoint resume, and the knowledge store) lives in the external
`langgraph` library and is not part of the repository sources; those parts
are modelled from the specification and are flagged as such in their doc
comments.
-/

namespace AgenticNotes

/-- A chat message, as in `langchain_core.messages`: the sources build
`SystemMessage`, `HumanMessage` and model replies (AI messages). Only the
role and the text content are relevant to the embedded behaviour. -/
inductive Msg where
  | system (content : String)
  | human (content : String)
  | ai (content : String)
deriving DecidableEq

/-- The model client: the sources call `llm.invoke(messages)` and read
`response.content`. The client is abstracted as a function from the message
list to the reply content, injected into every node. -/
def ModelClient : Type := List Msg → String

/-- Structure `StrategicState` from `06_strategic_executor.py` (lines 23-31): the
typed state record threaded through the workflow. -/
structure StrategicState where
  topic : String
  plan : String
  execution_result : String
  plan_quality_score : Int
  adaptation_needed : Bool
  adapted_plan : String
  final_result : String
  messages : List Msg
deriving DecidableEq

/-- The planning prompt of `create_plan_node` (lines 40-47); the source
wraps the topic in single quotes, rendered here as escaped double quotes. -/
def planPrompt (topic : String) : String :=
  "Create a strategic plan for writing about: \"" ++ topic ++ "\"\n\nYour plan should include:\n- Key points to cover\n- Structure/order\n- Target length considerations\n\nOutput a clear, actionable plan."

/-- Node `create_plan_node` (lines 35-65): builds the planning messages, calls the
model, stores the reply in `plan` and appends the exchange to `messages`. -/
def create_plan_node (llm : ModelClient) (state : StrategicState) : StrategicState :=
  let prompt := planPrompt state.topic
  let messages : List Msg := [.system "You are a strategic content planner.", .human prompt]
  let response := llm messages
  { state with
      plan := response
      messages := state.messages ++ messages ++ [.ai response] }

/-- The evaluation prompt of `evaluate_plan_node` (lines 72-77). -/
def evaluatePrompt (state : StrategicState) : String :=
  "Evaluate this plan for writing about \"" ++ state.topic ++ "\":\n\n" ++ state.plan ++ "\n\nRate the plan quality (1-10) and determine if it needs refinement.\nConsider: completeness, clarity, structure, feasibility."

/-- The keyword list of the adaptation heuristic (line 88). -/
def evalKeywords : List String :=
  ["improve", "weak", "missing", "unclear", "incomplete"]

/-- Python `str.lower()` applied by the heuristic: the ASCII case mapping,
character by character. -/
def lowerStr (s : String) : String :=
  ⟨s.data.map Char.toLower⟩

/-- Python `word in text`: substring containment, as a boolean. -/
def containsWord (text w : String) : Bool :=
  decide (w.data <:+: text.data)

/-- Node `evaluate_plan_node` (lines 67-101): calls the model on the evaluation
prompt; the default score is 7 with no adaptation, but if any keyword of
`evalKeywords` occurs in the lowercased reply the score becomes 5 and
`adaptation_needed` is set. -/
def evaluate_plan_node (llm : ModelClient) (state : StrategicState) : StrategicState :=
  let messages := state.messages ++ [.human (evaluatePrompt state)]
  let response := llm messages
  let evaluation := response
  let needs_adaptation := evalKeywords.any (fun w => containsWord (lowerStr evaluation) w)
  let score : Int := if needs_adaptation then 5 else 7
  { state with
      plan_quality_score := score
      adaptation_needed := needs_adaptation
      messages := messages ++ [.ai response] }

/-- The adaptation prompt of `adapt_plan_node` (lines 113-118). -/
def adaptPrompt (state : StrategicState) : String :=
  "Improve this plan for \"" ++ state.topic ++ "\":\n\nCurrent Plan:\n" ++ state.plan ++ "\n\nCreate a refined, improved version that addresses gaps and weaknesses."

/-- Node `adapt_plan_node` (lines 103-132): if `adaptation_needed` is not set it
copies `plan` into `adapted_plan` without calling the model; otherwise it
asks the model for an improved plan and stores the reply in `adapted_plan`. -/
def adapt_plan_node (llm : ModelClient) (state : StrategicState) : StrategicState :=
  if !state.adaptation_needed then
    { state with adapted_plan := state.plan }
  else
    let messages := state.messages ++ [.human (adaptPrompt state)]
    let response := llm messages
    { state with
        adapted_plan := response
        messages := messages ++ [.ai response] }

/-- The execution prompt of `execute_plan_node` (lines 141-146), built from
the topic and the chosen plan. -/
def execPromptFor (topic plan : String) : String :=
  "Execute this plan to write about \"" ++ topic ++ "\":\n\nPlan:\n" ++ plan ++ "\n\nWrite a well-structured summary following the plan. Target ~200 words."

/-- Node `execute_plan_node` (lines 134-161): `plan_to_use` is Python
`state.get("adapted_plan") or state["plan"]` — the empty string is falsy, so
a non-empty `adapted_plan` wins and otherwise `plan` is used. The model
reply is stored in both `execution_result` and `final_result`. -/
def execute_plan_node (llm : ModelClient) (state : StrategicState) : StrategicState :=
  let plan_to_use := if state.adapted_plan = "" then state.plan else state.adapted_plan
  let messages := state.messages ++ [.human (execPromptFor state.topic plan_to_use)]
  let response := llm messages
  { state with
      execution_result := response
      final_result := response
      messages := messages ++ [.ai response] }

/-- Router `should_adapt` (lines 163-168): the conditional router after the
`evaluate` node. -/
def should_adapt (state : StrategicState) : String :=
  if state.adaptation_needed then "adapt" else "execute"

/-- An edge target: a named node or the terminal marker (`END` in the
sources). -/
inductive NodeRef where
  | node (name : String)
  | terminal
deriving DecidableEq

/-- An outgoing edge: either static (`add_edge`) or conditional
(`add_conditional_edges`), the latter holding a router and the label-to-node
mapping dictionary. -/
inductive EdgeSpec (σ : Type) where
  | direct (target : NodeRef)
  | cond (router : σ → String) (mapping : List (String × NodeRef))

/-- Modelled from the spec: a workflow graph definition — nodes
(name to Step), edges (name to next-name or Router), and the entry node
(spec section 3, "Workflow Graph (compiled)"); in the sources this is the
`StateGraph` builder of `langgraph`, external to the repository. -/
structure GraphDef (σ : Type) where
  nodes : List (String × (σ → σ))
  edges : List (String × EdgeSpec σ)
  entry : String

/-- Modelled from the spec: the error taxonomy of the executor (spec
section 7) — `GraphValidationError` at compile time, `GraphStepLimitExceeded`
as the run-time loop guard, and run-time failures for a router naming an
undeclared node; the executor raising them is `langgraph` code external to
the repository. -/
inductive GraphError where
  | validationErr
  | stepLimitExceeded
  | unknownNode (name : String)
  | routerErr (label : String)
  | noOutgoingEdge (name : String)
deriving DecidableEq

/-- The targets referenced by one edge specification. -/
def edgeTargets {σ : Type} : EdgeSpec σ → List NodeRef
  | .direct t => [t]
  | .cond _ mapping => mapping.map Prod.snd

/-- Whether a target is declared: the terminal marker always is, a named
node must be registered. -/
def declaredTarget {σ : Type} (g : GraphDef σ) : NodeRef → Bool
  | .terminal => true
  | .node n => g.nodes.any (fun p => p.1 = n)

/-- Whether some edge of the graph points at an undeclared node. -/
def hasUndeclaredEdgeTarget {σ : Type} (g : GraphDef σ) : Bool :=
  g.edges.any (fun e => (edgeTargets e.2).any (fun t => !declaredTarget g t))

/-- Modelled from the spec: graph validation at compile time (spec
section 4.4) — the entry node must be declared, every edge target must be a
registered node or the terminal marker, and every node needs an outgoing
edge; performed by `langgraph`'s `compile`, external to the repository. -/
def graphValid {σ : Type} (g : GraphDef σ) : Bool :=
  g.nodes.any (fun p => p.1 = g.entry) &&
  g.edges.all (fun e => (edgeTargets e.2).all (declaredTarget g)) &&
  g.nodes.all (fun p => g.edges.any (fun e => e.1 = p.1))

/-- Modelled from the spec: `compile(nodes, edges, entry)` fails with
`GraphValidationError` on an invalid graph and otherwise yields the
executable graph (spec section 4.4); `workflow.compile()` at line 191 of
`06_strategic_executor.py` delegates this to `langgraph`. -/
def compile {σ : Type} (g : GraphDef σ) : Except GraphError (GraphDef σ) :=
  if graphValid g then .ok g else .error .validationErr

/-- Modelled from the spec: the sequential executor (spec section 4.4) —
run the current node, append it to the visited list, then follow its static
edge or apply its router; the fuel argument is the remaining step budget and
exhausting it fails with `GraphStepLimitExceeded`. -/
def runAux {σ : Type} (g : GraphDef σ) :
    Nat → String → σ → List String → Except GraphError (List String × σ)
  | 0, _, _, _ => .error .stepLimitExceeded
  | fuel + 1, cur, s, visited =>
    match g.nodes.lookup cur with
    | none => .error (.unknownNode cur)
    | some f =>
      let s' := f s
      let visited' := visited ++ [cur]
      match g.edges.lookup cur with
      | none => .error (.noOutgoingEdge cur)
      | some (.direct .terminal) => .ok (visited', s')
      | some (.direct (.node nxt)) => runAux g fuel nxt s' visited'
      | some (.cond router mapping) =>
        match mapping.lookup (router s') with
        | none => .error (.routerErr (router s'))
        | some .terminal => .ok (visited', s')
        | some (.node nxt) => runAux g fuel nxt s' visited'

/-- Modelled from the spec: the implementation-defined maximum step count,
with the spec-suggested default of 50 (spec section 4.4). -/
def stepLimit : Nat := 50

/-- Modelled from the spec: `invoke(initial_state)` — execute from the entry
node under the step budget, returning the visited node sequence and the
final state. -/
def invoke {σ : Type} (g : GraphDef σ) (limit : Nat) (s : σ) :
    Except GraphError (List String × σ) :=
  runAux g limit g.entry s []

/-- The strategic-executor graph wiring of `06_strategic_executor.py`
(lines 170-191): nodes `plan`, `evaluate`, `adapt`, `execute`; entry `plan`;
static edge `plan` to `evaluate`; conditional edges from `evaluate` through
`should_adapt` with mapping adapt-to-adapt, execute-to-execute; static edge
`adapt` to `execute`; `execute` to the terminal marker. -/
def strategicGraph (llm : ModelClient) : GraphDef StrategicState where
  nodes := [("plan", create_plan_node llm), ("evaluate", evaluate_plan_node llm),
            ("adapt", adapt_plan_node llm), ("execute", execute_plan_node llm)]
  edges := [("plan", .direct (.node "evaluate")),
            ("evaluate", .cond should_adapt
              [("adapt", .node "adapt"), ("execute", .node "execute")]),
            ("adapt", .direct (.node "execute")),
            ("execute", .direct .terminal)]
  entry := "plan"

/-- A state as a partial mapping from field name to value: the unit of the
delta-merge semantics (spec section 3, "State"); in the sources the Python
dictionaries handled by the `langgraph` channel update. -/
def MapState (V : Type) : Type := String → Option V

/-- The delta-merge: Python dictionary update semantics, as in the node
returns written with dictionary spreading at lines 61-65 and 96-101 of
`06_strategic_executor.py` — a field of the delta overwrites, every other
field of the state is kept, and no field is ever deleted. -/
def mergeState {V : Type} (s d : MapState V) : MapState V :=
  fun k =>
    match d k with
    | some v => some v
    | none => s k

/-- Modelled from the spec: the Checkpoint Store (spec section 6) maps a
thread identifier to its latest checkpointed state and sequence number; in
the sources `MemorySaver` of `langgraph`, external to the repository. -/
def CheckpointStore (V : Type) : Type := String → Option (MapState V × Nat)

/-- Modelled from the spec: `loadLatest(threadId)` of the Checkpoint
Store. -/
def loadLatest {V : Type} (store : CheckpointStore V) (t : String) :
    Option (MapState V × Nat) :=
  store t

/-- Modelled from the spec: the state a thread-scoped invocation starts
from (spec section 4.4) — with a checkpoint present, checkpointed fields
take precedence and only new fields of the fresh initial state layer on
top; with no checkpoint, the fresh state is used as given. -/
def resumeState {V : Type} (store : CheckpointStore V) (t : String)
    (init : MapState V) : MapState V :=
  match loadLatest store t with
  | some (ckpt, _) => mergeState init ckpt
  | none => init

/-- Modelled from the spec: `invoke(initial_state, thread_id)` — resume
from the thread's latest checkpoint when one exists, then execute; in the
sources `app.invoke(initial_state, config)` with a `thread_id` at lines
120-142 of `08_memory_langgraph.py`, delegated to `langgraph`. -/
def invokeWithThread {V : Type} (g : GraphDef (MapState V)) (limit : Nat)
    (store : CheckpointStore V) (t : String) (init : MapState V) :
    Except GraphError (List String × MapState V) :=
  invoke g limit (resumeState store t init)

/-- Removing every checkpoint of one thread from a store. -/
def eraseThread {V : Type} (store : CheckpointStore V) (t : String) :
    CheckpointStore V :=
  fun u => if u = t then none else store u

/-- Modelled from the spec: the Knowledge Store (spec section 6) — records
keyed by a (namespace, key) pair, the namespace a tuple of identifiers; in
the sources `InMemoryStore` of `langgraph`, used at lines 214-233 of
`08_memory_langgraph.py`, external to the repository. -/
def KnowledgeStore (V : Type) : Type := List String × String → Option V

/-- Modelled from the spec: `put(namespace, key, value)` — write one record,
overwriting any prior value under the same (namespace, key). -/
def putStore {V : Type} (st : KnowledgeStore V) (ns : List String)
    (k : String) (v : V) : KnowledgeStore V :=
  fun q => if q = (ns, k) then some v else st q

/-- Modelled from the spec: `get(namespace, key)` — read one record. -/
def getStore {V : Type} (st : KnowledgeStore V) (ns : List String)
    (k : String) : Option V :=
  st (ns, k)

/-- The initial state built by `strategic_executor` (lines 217-226), with the
spec scenario topic. -/
def st0 : StrategicState where
  topic := "X"
  plan := ""
  execution_result := ""
  plan_quality_score := 0
  adaptation_needed := false
  adapted_plan := ""
  final_result := ""
  messages := []

/-- A model client whose evaluation reply deterministically flags weak input
(the reply contains the keyword of line 88). -/
def llmWeak : ModelClient := fun _ => "This plan is weak."

/-- A model client whose replies contain none of the adaptation keywords. -/
def llmGood : ModelClient := fun _ => "Excellent plan."

/-- A concrete state in which an adapted plan is present. -/
def stAdapted : StrategicState := { st0 with plan := "A", adapted_plan := "B" }

/-- A concrete two-field state for the merge laws. -/
def sW : MapState Nat := fun k => if k = "a" then some 1 else if k = "b" then some 2 else none

/-- A concrete delta setting field a. -/
def d1W : MapState Nat := fun k => if k = "a" then some 10 else none

/-- A concrete second delta also setting field a. -/
def d2W : MapState Nat := fun k => if k = "a" then some 100 else none

/-- The empty knowledge store. -/
def ksW : KnowledgeStore Nat := fun _ => none

/-- A minimal valid one-node graph. -/
def singleGraph : GraphDef Nat where
  nodes := [("a", id)]
  edges := [("a", .direct .terminal)]
  entry := "a"

/-- A graph whose router always sends execution back to an earlier node, the
misconfiguration named by the spec as the reason for the step-count guard. -/
def loopGraph : GraphDef Nat where
  nodes := [("a", id), ("b", id)]
  edges := [("a", .direct (.node "b")), ("b", .cond (fun _ => "a") [("a", .node "a")])]
  entry := "a"

/-- A graph with an edge to an undeclared node. -/
def badGraph : GraphDef Nat where
  nodes := [("a", id)]
  edges := [("a", .direct (.node "ghost"))]
  entry := "a"

/-- A minimal one-node graph over mapping states, for the checkpointing
scenarios of `08_memory_langgraph.py`. -/
def idGraphM : GraphDef (MapState Nat) where
  nodes := [("a", id)]
  edges := [("a", .direct .terminal)]
  entry := "a"

/-- A concrete checkpointed state. -/
def ckptW : MapState Nat := fun k => if k = "x" then some 1 else none

/-- A concrete fresh initial state introducing a new field. -/
def initW : MapState Nat := fun k => if k = "y" then some 2 else none

/-- A checkpoint store holding one checkpoint for the thread identifier of
line 110 of `08_memory_langgraph.py`. -/
def storeW : CheckpointStore Nat := fun t => if t = "conversation-1" then some (ckptW, 1) else none

lemma runAux_strategic_plan (llm : ModelClient) (fuel : Nat) (s : StrategicState)
    (visited : List String) :
    runAux (strategicGraph llm) (fuel + 1) "plan" s visited =
      runAux (strategicGraph llm) fuel "evaluate" (create_plan_node llm s) (visited ++ ["plan"]) := rfl

lemma runAux_strategic_evaluate_adapt (llm : ModelClient) (fuel : Nat) (s : StrategicState)
    (visited : List String) (h : (evaluate_plan_node llm s).adaptation_needed = true) :
    runAux (strategicGraph llm) (fuel + 1) "evaluate" s visited =
      runAux (strategicGraph llm) fuel "adapt" (evaluate_plan_node llm s) (visited ++ ["evaluate"]) := by
  simp [runAux, strategicGraph, should_adapt, h, List.lookup]

lemma runAux_strategic_evaluate_execute (llm : ModelClient) (fuel : Nat) (s : StrategicState)
    (visited : List String) (h : (evaluate_plan_node llm s).adaptation_needed = false) :
    runAux (strategicGraph llm) (fuel + 1) "evaluate" s visited =
      runAux (strategicGraph llm) fuel "execute" (evaluate_plan_node llm s) (visited ++ ["evaluate"]) := by
  simp [runAux, strategicGraph, should_adapt, h, List.lookup]

lemma runAux_strategic_adapt (llm : ModelClient) (fuel : Nat) (s : StrategicState)
    (visited : List String) :
    runAux (strategicGraph llm) (fuel + 1) "adapt" s visited =
      runAux (strategicGraph llm) fuel "execute" (adapt_plan_node llm s) (visited ++ ["adapt"]) := rfl

lemma runAux_strategic_execute (llm : ModelClient) (fuel : Nat) (s : StrategicState)
    (visited : List String) :
    runAux (strategicGraph llm) (fuel + 1) "execute" s visited =
      .ok (visited ++ ["execute"], execute_plan_node llm s) := rfl

/-- C1: starting at entry node plan, plan unconditionally goes to evaluate;
after evaluate the router chooses adapt exactly when `adaptation_needed` is
set and execute otherwise, so the visited node sequence is
plan-evaluate-adapt-execute when adaptation is flagged and
plan-evaluate-execute otherwise, terminating (with an `ok` result) in both
cases. -/
theorem strategic_route (llm : ModelClient) (init : StrategicState) :
    ((evaluate_plan_node llm (create_plan_node llm init)).adaptation_needed = true →
      invoke (strategicGraph llm) stepLimit init =
        .ok (["plan", "evaluate", "adapt", "execute"],
          execute_plan_node llm (adapt_plan_node llm
            (evaluate_plan_node llm (create_plan_node llm init)))))
    ∧ ((evaluate_plan_node llm (create_plan_node llm init)).adaptation_needed = false →
      invoke (strategicGraph llm) stepLimit init =
        .ok (["plan", "evaluate", "execute"],
          execute_plan_node llm (evaluate_plan_node llm (create_plan_node llm init)))) := by
  constructor <;> intro h
  · show runAux (strategicGraph llm) 50 "plan" init [] = _
    rw [show (50 : Nat) = 49 + 1 from rfl, runAux_strategic_plan,
        show (49 : Nat) = 48 + 1 from rfl, runAux_strategic_evaluate_adapt llm 48 _ _ h,
        show (48 : Nat) = 47 + 1 from rfl, runAux_strategic_adapt,
        show (47 : Nat) = 46 + 1 from rfl, runAux_strategic_execute]
    rfl
  · show runAux (strategicGraph llm) 50 "plan" init [] = _
    rw [show (50 : Nat) = 49 + 1 from rfl, runAux_strategic_plan,
        show (49 : Nat) = 48 + 1 from rfl, runAux_strategic_evaluate_execute llm 48 _ _ h,
        show (48 : Nat) = 47 + 1 from rfl, runAux_strategic_execute]
    rfl

/-- Witness for C1: a client that deterministically flags weak input yields
the four-node sequence, one that never does yields the three-node one. -/
theorem strategic_route_witness :
    invoke (strategicGraph llmWeak) stepLimit st0 =
      .ok (["plan", "evaluate", "adapt", "execute"],
        execute_plan_node llmWeak (adapt_plan_node llmWeak
          (evaluate_plan_node llmWeak (create_plan_node llmWeak st0))))
    ∧ invoke (strategicGraph llmGood) stepLimit st0 =
      .ok (["plan", "evaluate", "execute"],
        execute_plan_node llmGood (evaluate_plan_node llmGood (create_plan_node llmGood st0))) :=
  ⟨(strategic_route llmWeak st0).1 (by decide), (strategic_route llmGood st0).2 (by decide)⟩

/-- C2: merging two deltas in sequence equals a field-by-field overwrite —
a field set by the second delta holds its value even when the first also set
it, a field set only by the first holds the first value, any other field is
unchanged, and a field present in the state never disappears through a
merge. -/
theorem merge_overwrite {V : Type} (s d1 d2 : MapState V) (k : String) :
    mergeState (mergeState s d1) d2 k =
      (match d2 k with
       | some v => some v
       | none =>
         match d1 k with
         | some v => some v
         | none => s k)
    ∧ (∀ v, d2 k = some v → mergeState (mergeState s d1) d2 k = some v)
    ∧ (d2 k = none → ∀ v, d1 k = some v → mergeState (mergeState s d1) d2 k = some v)
    ∧ (d2 k = none → d1 k = none → mergeState (mergeState s d1) d2 k = s k)
    ∧ ∀ (d : MapState V) (v : V), s k = some v → mergeState s d k ≠ none := by
  refine ⟨?_, ?_, ?_, ?_, ?_⟩
  · cases h2 : d2 k <;> cases h1 : d1 k <;> simp [mergeState, h1, h2]
  · intro v hv; simp [mergeState, hv]
  · intro h2 v h1; simp [mergeState, h1, h2]
  · intro h2 h1; simp [mergeState, h1, h2]
  · intro d v hv
    cases hd : d k <;> simp [mergeState, hd, hv]

/-- Witness for C2: with both deltas writing field a, the second wins, and
the field b of the state survives the merge. -/
theorem merge_overwrite_witness :
    mergeState (mergeState sW d1W) d2W "a" = some 100 ∧ mergeState sW d1W "b" ≠ none :=
  ⟨(merge_overwrite sW d1W d2W "a").2.1 100 rfl,
   (merge_overwrite sW d1W d2W "b").2.2.2.2 d1W 2 rfl⟩

/-- C3: the evaluate step sets `adaptation_needed` exactly when the
lowercased model reply contains one of the keywords improve, weak, missing,
unclear, incomplete; when set the score is 5, otherwise 7. -/
theorem evaluate_heuristic (llm : ModelClient) (state : StrategicState) :
    ((evaluate_plan_node llm state).adaptation_needed = true ↔
      ∃ w ∈ evalKeywords,
        w.data <:+: (lowerStr (llm (state.messages ++ [.human (evaluatePrompt state)]))).data)
    ∧ ((evaluate_plan_node llm state).adaptation_needed = true →
        (evaluate_plan_node llm state).plan_quality_score = 5)
    ∧ ((evaluate_plan_node llm state).adaptation_needed = false →
        (evaluate_plan_node llm state).plan_quality_score = 7) := by
  refine ⟨?_, ?_, ?_⟩
  · simp [evaluate_plan_node, containsWord, List.any_eq_true, decide_eq_true_iff]
  · intro h
    simp only [evaluate_plan_node] at h ⊢
    simp [h]
  · intro h
    simp only [evaluate_plan_node] at h ⊢
    simp [h]

/-- Witness for C3: a reply containing the word weak flags adaptation and
scores 5. -/
theorem evaluate_heuristic_witness :
    (evaluate_plan_node llmWeak st0).adaptation_needed = true
    ∧ (evaluate_plan_node llmWeak st0).plan_quality_score = 5 := by
  have h : (evaluate_plan_node llmWeak st0).adaptation_needed = true :=
    (evaluate_heuristic llmWeak st0).1.mpr ⟨"weak", by decide, by decide⟩
  exact ⟨h, (evaluate_heuristic llmWeak st0).2.1 h⟩

lemma evaluate_plan_node_score (llm : ModelClient) (state : StrategicState) :
    (evaluate_plan_node llm state).plan_quality_score =
      (if (evaluate_plan_node llm state).adaptation_needed then 5 else 7) := rfl

/-- C9: after every execution of the evaluate node the quality score is
either 5 or 7, and `adaptation_needed` holds exactly when the score is 5. -/
theorem evaluate_invariant (llm : ModelClient) (state : StrategicState) :
    ((evaluate_plan_node llm state).plan_quality_score = 5 ∨
      (evaluate_plan_node llm state).plan_quality_score = 7)
    ∧ ((evaluate_plan_node llm state).adaptation_needed = true ↔
        (evaluate_plan_node llm state).plan_quality_score = 5) := by
  have hs := evaluate_plan_node_score llm state
  cases hb : (evaluate_plan_node llm state).adaptation_needed <;> simp [hs, hb]

/-- C10: the execute step works from `adapted_plan` when that field is a
non-empty string and falls back to `plan` otherwise, and it returns a state
whose `final_result` equals its `execution_result`, both the model reply. -/
theorem execute_plan_choice (llm : ModelClient) (state : StrategicState) :
    (state.adapted_plan ≠ "" →
      (execute_plan_node llm state).execution_result =
        llm (state.messages ++ [.human (execPromptFor state.topic state.adapted_plan)]))
    ∧ (state.adapted_plan = "" →
      (execute_plan_node llm state).execution_result =
        llm (state.messages ++ [.human (execPromptFor state.topic state.plan)]))
    ∧ (execute_plan_node llm state).final_result =
        (execute_plan_node llm state).execution_result := by
  refine ⟨?_, ?_, rfl⟩
  · intro h; simp [execute_plan_node, h]
  · intro h; simp [execute_plan_node, h]

/-- Witness for C10: with a non-empty adapted plan present, execution runs
from the adapted plan. -/
theorem execute_plan_choice_witness :
    (execute_plan_node llmGood stAdapted).execution_result =
      llmGood (stAdapted.messages ++
        [.human (execPromptFor stAdapted.topic stAdapted.adapted_plan)]) :=
  (execute_plan_choice llmGood stAdapted).1 (by decide)

/-- C7: writing the same namespace and key twice overwrites, so a get
returns the second value (last-writer-wins), and a put leaves every other
(namespace, key) record unchanged. -/
theorem store_last_writer_wins {V : Type} (st : KnowledgeStore V) (ns : List String)
    (k : String) (v1 v2 v : V) :
    getStore (putStore (putStore st ns k v1) ns k v2) ns k = some v2
    ∧ ∀ ns' k', (ns', k') ≠ (ns, k) →
        getStore (putStore st ns k v) ns' k' = getStore st ns' k' := by
  constructor
  · simp [getStore, putStore]
  · intro ns' k' h; simp [getStore, putStore, h]

/-- Witness for C7: the put-put-get scenario of `08_memory_langgraph.py`,
together with an unrelated key being untouched. -/
theorem store_last_writer_wins_witness :
    getStore (putStore (putStore ksW ["user_alice", "personal_assistant"] "user_preferences" 1)
        ["user_alice", "personal_assistant"] "user_preferences" 2)
      ["user_alice", "personal_assistant"] "user_preferences" = some 2
    ∧ getStore (putStore ksW ["user_alice", "personal_assistant"] "user_preferences" 2)
        ["user_alice", "personal_assistant"] "agent_instructions" =
      getStore ksW ["user_alice", "personal_assistant"] "agent_instructions" :=
  ⟨(store_last_writer_wins ksW ["user_alice", "personal_assistant"] "user_preferences" 1 2 2).1,
   (store_last_writer_wins ksW ["user_alice", "personal_assistant"] "user_preferences" 1 2 2).2
     ["user_alice", "personal_assistant"] "agent_instructions" (by decide)⟩

lemma runAux_ok_length {σ : Type} (g : GraphDef σ) :
    ∀ (fuel : Nat) (cur : String) (s : σ) (visited vs : List String) (fs : σ),
      runAux g fuel cur s visited = .ok (vs, fs) → vs.length ≤ visited.length + fuel := by
  intro fuel
  induction fuel with
  | zero => intro cur s visited vs fs h; simp [runAux] at h
  | succ n ih =>
    intro cur s visited vs fs h
    simp only [runAux] at h
    split at h
    · exact absurd h (by simp)
    · split at h
      · exact absurd h (by simp)
      · injection h with h'
        injection h' with h1 h2
        subst h1
        simp only [List.length_append, List.length_cons, List.length_nil]
        omega
      · have := ih _ _ _ _ _ h
        simp only [List.length_append, List.length_cons, List.length_nil] at this
        omega
      · split at h
        · exact absurd h (by simp)
        · injection h with h'
          injection h' with h1 h2
          subst h1
          simp only [List.length_append, List.length_cons, List.length_nil]
          omega
        · have := ih _ _ _ _ _ h
          simp only [List.length_append, List.length_cons, List.length_nil] at this
          omega

lemma loopGraph_spins : ∀ (fuel : Nat) (s : Nat) (visited : List String),
    runAux loopGraph fuel "a" s visited = .error .stepLimitExceeded
    ∧ runAux loopGraph fuel "b" s visited = .error .stepLimitExceeded := by
  intro fuel
  induction fuel with
  | zero => intro s visited; exact ⟨rfl, rfl⟩
  | succ n ih =>
    intro s visited
    constructor
    · have h : runAux loopGraph (n + 1) "a" s visited =
          runAux loopGraph n "b" s (visited ++ ["a"]) := rfl
      rw [h]
      exact (ih s (visited ++ ["a"])).2
    · have h : runAux loopGraph (n + 1) "b" s visited =
          runAux loopGraph n "a" s (visited ++ ["b"]) := rfl
      rw [h]
      exact (ih s (visited ++ ["b"])).1

/-- C4: the executor is total under the step-count bound — a successful run
visits at most `limit` nodes, and a graph whose router always routes back to
an earlier node fails with the step-limit error (the default limit being
50) instead of looping forever. -/
theorem invoke_step_limit :
    (∀ (σ : Type) (g : GraphDef σ) (limit : Nat) (s : σ) (vs : List String) (fs : σ),
        invoke g limit s = .ok (vs, fs) → vs.length ≤ limit)
    ∧ ∀ s : Nat, invoke loopGraph stepLimit s = .error .stepLimitExceeded := by
  constructor
  · intro σ g limit s vs fs h
    have := runAux_ok_length g limit g.entry s [] vs fs h
    simpa using this
  · intro s
    exact (loopGraph_spins stepLimit s []).1

/-- Witness for C4: a one-node run under limit 2 succeeds and its visited
sequence respects the bound. -/
theorem invoke_step_limit_witness :
    invoke singleGraph 2 0 = .ok (["a"], 0) ∧ (["a"] : List String).length ≤ 2 :=
  ⟨rfl, invoke_step_limit.1 Nat singleGraph 2 0 ["a"] 0 rfl⟩

lemma runAux_ne_validation {σ : Type} (g : GraphDef σ) :
    ∀ (fuel : Nat) (cur : String) (s : σ) (visited : List String),
      runAux g fuel cur s visited ≠ .error .validationErr := by
  intro fuel
  induction fuel with
  | zero => intro cur s visited h; simp [runAux] at h
  | succ n ih =>
    intro cur s visited h
    simp only [runAux] at h
    split at h
    · simp at h
    · split at h
      · simp at h
      · simp at h
      · exact ih _ _ _ h
      · split at h
        · simp at h
        · simp at h
        · exact ih _ _ _ h

/-- C8: a graph with an edge whose target is not a declared node fails to
compile with the validation error, and no run of the executor ever produces
the validation error — it is a compile-time-only failure, so a graph that
fails validation never starts executing. -/
theorem compile_validation :
    (∀ (σ : Type) (g : GraphDef σ), hasUndeclaredEdgeTarget g = true →
        compile g = .error .validationErr)
    ∧ ∀ (σ : Type) (g : GraphDef σ) (limit : Nat) (s : σ),
        invoke g limit s ≠ .error .validationErr := by
  constructor
  · intro σ g h
    simp only [hasUndeclaredEdgeTarget, List.any_eq_true, Bool.not_eq_true'] at h
    obtain ⟨e, he, t, ht, hd⟩ := h
    have hB : g.edges.all (fun e => (edgeTargets e.2).all (declaredTarget g)) = false := by
      by_contra hc
      rw [Bool.not_eq_false, List.all_eq_true] at hc
      have := List.all_eq_true.mp (hc e he) t ht
      rw [hd] at this
      cases this
    simp [compile, graphValid, hB]
  · intro σ g limit s
    exact runAux_ne_validation g limit g.entry s []

/-- Witness for C8: the graph with an edge to the undeclared node ghost is
rejected at compile time. -/
theorem compile_validation_witness :
    compile badGraph = .error .validationErr ∧ hasUndeclaredEdgeTarget badGraph = true :=
  ⟨compile_validation.1 Nat badGraph rfl, rfl⟩

/-- C5: invoking with a thread identifier that has a checkpoint resumes
from exactly the checkpointed state — the whole run equals a fresh run from
the checkpoint layered over the fresh input, checkpointed fields keep their
checkpointed values, and only fields absent from the checkpoint come from
the fresh initial state. -/
theorem checkpoint_resume {V : Type} (g : GraphDef (MapState V)) (limit : Nat)
    (store : CheckpointStore V) (t : String) (ckpt init : MapState V) (n : Nat)
    (h : loadLatest store t = some (ckpt, n)) :
    invokeWithThread g limit store t init = invoke g limit (mergeState init ckpt)
    ∧ (∀ k v, ckpt k = some v → resumeState store t init k = some v)
    ∧ ∀ k, ckpt k = none → resumeState store t init k = init k := by
  have hr : resumeState store t init = mergeState init ckpt := by
    simp [resumeState, h]
  refine ⟨by simp [invokeWithThread, hr], ?_, ?_⟩
  · intro k v hk; rw [hr]; simp [mergeState, hk]
  · intro k hk; rw [hr]; simp [mergeState, hk]

/-- Witness for C5: resuming thread conversation-1 keeps the checkpointed
field x and layers the new field y on top. -/
theorem checkpoint_resume_witness :
    invokeWithThread idGraphM 50 storeW "conversation-1" initW =
      invoke idGraphM 50 (mergeState initW ckptW)
    ∧ resumeState storeW "conversation-1" initW "x" = some 1
    ∧ resumeState storeW "conversation-1" initW "y" = some 2 :=
  ⟨(checkpoint_resume idGraphM 50 storeW "conversation-1" ckptW initW 1 rfl).1,
   (checkpoint_resume idGraphM 50 storeW "conversation-1" ckptW initW 1 rfl).2.1 "x" 1 rfl,
   ((checkpoint_resume idGraphM 50 storeW "conversation-1" ckptW initW 1 rfl).2.2 "y" rfl).trans rfl⟩

/-- C6: two-run noninterference across thread identifiers — an invocation
under one thread identifier returns exactly what it would return if the
checkpoints of any other thread identifier did not exist. -/
theorem thread_isolation {V : Type} (g : GraphDef (MapState V)) (limit : Nat)
    (store : CheckpointStore V) (t1 t2 : String) (init : MapState V) (h : t1 ≠ t2) :
    invokeWithThread g limit (eraseThread store t1) t2 init =
      invokeWithThread g limit store t2 init := by
  have he : eraseThread store t1 t2 = store t2 := if_neg (Ne.symm h)
  simp [invokeWithThread, resumeState, loadLatest, he]

/-- Witness for C6: erasing the checkpoints of conversation-2 does not
change a run under conversation-1. -/
theorem thread_isolation_witness :
    invokeWithThread idGraphM 50 (eraseThread storeW "conversation-2") "conversation-1" initW =
      invokeWithThread idGraphM 50 storeW "conversation-1" initW :=
  thread_isolation idGraphM 50 storeW "conversation-2" "conversation-1" initW (by decide)

end AgenticNotes
